import Mathlib

/-!
# terminal-graphs: a shallow embedding of `main.go`

The program polls a market-data endpoint once per second and draws either a menu or a price
chart on a live terminal writer, driven by single keys.  Three goroutines (`inputHandler`,
`dataWorker`, `displayWorker`) talk through three channels of capacity one.

Modelling decisions.

* `float64` values are the elements of a type parameter `F`; `strconv.ParseFloat`,
  `asciigraph.Plot`, the verb `%.2f` of `fmt` and `time.Time.Format` are library calls and
  come in through `Env`.  `asciigraph.Plot` may panic, which stops the process.
* A slice is a `List`; the `nil` slice is `[]` (both have `len` zero).
* A channel of capacity one is an `Option`: `none` is the empty channel.  A send on a full
  channel blocks: the goroutine keeps the value and its step changes nothing until the slot
  is free.
* The `uilive.Writer` is the chronological list of the calls made on it.
* The outcome of the HTTP exchange of one `getPrices` call is an input of the step
  (`HttpResult`); the arguments of the `getPrices` calls are recorded in `fetches`.
* One scheduling step of one goroutine is a `Label`; an interleaving is a `List Label`.
  An iteration of `displayWorker` is one step: its receives never block, and a step of
  another goroutine between its outer and its inner `select` has the effect it would have
  before the iteration.  An iteration of `dataWorker` is two steps, up to the send on `dataCh`
  and the send; `inputHandler` reads an event in one step and makes each send in one step.
-/

namespace TerminalGraphs

/-! ## Data model -/

/-- Trade: one trade record of the decoded JSON body (`Type` is spelled `Typ`). -/
structure Trade where
  ID : Int
  Typ : String
  Pair : String
  Price : String
  Amount : String
  Timestamp : Int
  deriving DecidableEq, Repr

/-- Data: a price list together with the pair it was fetched for. -/
structure Data (F : Type) where
  prices : List F
  pairsKey : String
  deriving DecidableEq, Repr

/-- Api: the base url of the endpoint. -/
structure Api where
  url : String
  deriving DecidableEq, Repr

/-- Errors that `getPrices` returns, one constructor per `return nil, "", err` of the source. -/
inductive Error
  | newRequest (msg : String)
  | clientDo (msg : String)
  | statusCode (code : Nat)
  | decode (msg : String)
  | emptyResponse (pairs : String)
  | convertPrice (msg : String)
  deriving DecidableEq, Repr

/-- Library functions over `float64` and time that the program calls. -/
structure Env (F : Type) where
  /-- the zero value that `make([]float64, n)` fills the slice with -/
  zero : F
  /-- `strconv.ParseFloat(s, 64)` -/
  parseFloat : String → Except String F
  /-- `asciigraph.Plot(prices, Width(w), Height(h))`: the graph, or `none` when the call
  panics -/
  plot : List F → Nat → Nat → Option String
  /-- the text `fmt` writes for a `float64` operand of the verb `%.2f` -/
  format2f : F → String
  /-- `t.Format(layout)` -/
  timeFormat : Nat → String → String

/-- The outcome of the HTTP exchange of one `getPrices` call: `http.NewRequest` fails,
`client.Do` fails, or a response arrives with a status code and a body that the JSON decoder
either rejects or turns into a `map[string][]Trade`. -/
inductive HttpResult
  | requestError (msg : String)
  | doError (msg : String)
  | response (StatusCode : Nat) (body : Except String (String → Option (List Trade)))

/-- The constant `http.StatusOK`. -/
def StatusOK : Nat := 200

/-- The three results of `getPrices`: `([]float64, string, error)`. -/
structure PricesResult (F : Type) where
  prices : List F
  pairs : String
  err : Option Error
  deriving DecidableEq, Repr

/-! ## getPrices -/

/-- The loop `for i, trade := range trades` of `getPrices`: `i` is the index of the head of the
remaining trades and `prices` the slice as written so far. -/
def getPricesLoop {F : Type} (env : Env F) : List Trade → Nat → List F → Except Error (List F)
  | [], _, prices => .ok prices
  | trade :: rest, i, prices =>
    match env.parseFloat trade.Price with
    | .error e => .error (.convertPrice e)
    | .ok price => getPricesLoop env rest (i + 1) (prices.set i price)

/-- The method `Api.getPrices`, given the outcome of its HTTP exchange. -/
def getPrices {F : Type} (env : Env F) (http : HttpResult) (pairs : String) : PricesResult F :=
  match http with
  | .requestError e => ⟨[], "", some (.newRequest e)⟩
  | .doError e => ⟨[], "", some (.clientDo e)⟩
  | .response code body =>
    if code ≠ StatusOK then ⟨[], "", some (.statusCode code)⟩
    else
      match body with
      | .error e => ⟨[], "", some (.decode e)⟩
      | .ok tradesResponse =>
        match tradesResponse pairs with
        | none => ⟨[], "", some (.emptyResponse pairs)⟩
        | some trades =>
          match getPricesLoop env trades 0 (List.replicate trades.length env.zero) with
          | .error e => ⟨[], "", some e⟩
          | .ok prices => ⟨prices, pairs, none⟩

/-! ## The terminal writer -/

/-- An operand of an `fmt` call. -/
inductive Arg (F : Type)
  | str (s : String)
  | float (x : F)
  deriving DecidableEq, Repr

/-- One call on the `uilive.Writer`: `Flush()`, or an `fmt.Fprintln` / `fmt.Fprintf` whose
destination is the writer itself (`viaNewline = false`) or `writer.Newline()`. -/
inductive WriterOp (F : Type)
  | Flush
  | Fprintln (viaNewline : Bool) (args : List (Arg F))
  | Fprintf (viaNewline : Bool) (format : String) (args : List (Arg F))
  deriving DecidableEq, Repr

/-- The writer: every call made on it so far, oldest first. -/
abbrev Writer (F : Type) := List (WriterOp F)

/-- The calls of `displayMenu`, in order. -/
def menuOps (F : Type) : List (WriterOp F) :=
  [ .Flush,
    .Fprintln false [.str "1. BTC_USD"],
    .Fprintln true [.str "2. LTC_USD"],
    .Fprintln true [.str "3. ETH_USD"],
    .Fprintln true [.str ""],
    .Fprintln true [.str "Press 1-3 to change symbol, press q to exit"] ]

/-- The function `displayMenu`. -/
def displayMenu {F : Type} (writer : Writer F) : Writer F :=
  writer ++ menuOps F

/-- The writes of `displayGraph` after its `Flush()`, `graph` being what `asciigraph.Plot`
returned and `last` the element `prices[len(prices)-1]`. -/
def graphOps {F : Type} (env : Env F) (t : Nat) (graph : String) (pairsKey : String)
    (last : F) : List (WriterOp F) :=
  [ .Fprintf false "%s: %.2f\n" [.str pairsKey, .float last],
    .Fprintln true [.str graph],
    .Fprintln true [.str "Текущая дата:", .str (env.timeFormat t "2006-01-02")],
    .Fprintln true [.str "Текущее время:", .str (env.timeFormat t "15:04:05")] ]

/-- How a call of `displayGraph` ends: it returns, or it panics; `writer` is the writer as the
call leaves it. -/
inductive Drawing (F : Type)
  | returned (writer : Writer F)
  | panicked (writer : Writer F) (msg : String)
  deriving DecidableEq, Repr

/-- The function `displayGraph`; `now` is what `time.Now()` returns.  After the flush the call
panics when `asciigraph.Plot` panics, and when the index expression `prices[len(prices)-1]` is
out of range. -/
def displayGraph {F : Type} (env : Env F) (now : Nat) (data : Data F) (writer : Writer F) :
    Drawing F :=
  let prices := data.prices
  let pairsKey := data.pairsKey
  if prices.length = 0 then
    .returned writer
  else
    let writer := writer ++ [.Flush]
    match env.plot prices 100 10 with
    | none => .panicked writer "asciigraph.Plot"
    | some graph =>
      match prices[prices.length - 1]? with
      | none => .panicked writer "index out of range"
      | some last => .returned (writer ++ graphOps env now graph pairsKey last)

/-- The text that `fmt.Fprintf` writes for a format string (as its characters) and operands,
for the verbs `%s` and `%.2f`. -/
def sprintf {F : Type} (env : Env F) : List Char → List (Arg F) → String
  | '%' :: 's' :: cs, .str s :: args => s ++ sprintf env cs args
  | '%' :: '.' :: '2' :: 'f' :: cs, .float x :: args => env.format2f x ++ sprintf env cs args
  | c :: cs, args => String.singleton c ++ sprintf env cs args
  | [], _ => ""

/-- Whether a text ends in a point and two decimal digits. -/
def twoDecimals (text : String) : Bool :=
  match text.data.reverse with
  | d₂ :: d₁ :: '.' :: _ => d₁.isDigit && d₂.isDigit
  | _ => false

/-! ## Keyboard events -/

/-- The event `keyboard.KeyEvent`: a key code, a rune and an error. -/
structure KeyEvent where
  Key : Nat
  Rune : Char
  Err : Option String
  deriving DecidableEq, Repr

/-- The constant `keyboard.KeyBackspace` of the keyboard library. -/
def KeyBackspace : Nat := 0x08

/-- The constant `keyboard.KeyBackspace2` of the keyboard library. -/
def KeyBackspace2 : Nat := 0x7F

/-- The key event of a plain character key. -/
def runeKey (r : Char) : KeyEvent :=
  { Key := 0, Rune := r, Err := none }

/-- A channel send of `inputHandler`. -/
inductive Send
  | pairsKey (key : String)
  | displayMode (mode : Int)
  deriving DecidableEq, Repr

/-- What `inputHandler` does with one event: panic, exit, or a sequence of sends. -/
inductive InputAction
  | panic (err : String)
  | exit (code : Int)
  | sends (l : List Send)
  deriving DecidableEq, Repr

/-- The sends of the `switch event.Rune` of `inputHandler` (the case `q` apart). -/
def runeSends (r : Char) : List Send :=
  if r = '1' then [.pairsKey "BTC_USD", .displayMode 1]
  else if r = '2' then [.pairsKey "LTC_USD", .displayMode 1]
  else if r = '3' then [.pairsKey "ETH_USD", .displayMode 1]
  else []

/-- The sends of the `if event.Key == ...` of `inputHandler`. -/
def keySends (k : Nat) : List Send :=
  if k = KeyBackspace ∨ k = KeyBackspace2 then [.displayMode 0] else []

/-- The body of the loop of `inputHandler` for one event. -/
def handleEvent (event : KeyEvent) : InputAction :=
  match event.Err with
  | some e => .panic e
  | none =>
    if event.Rune = 'q' then .exit 0
    else .sends (runeSends event.Rune ++ keySends event.Key)

/-! ## The running system -/

/-- Whether the process runs, has exited, or has panicked. -/
inductive Status
  | running
  | exited (code : Int)
  | panicked (msg : String)
  deriving DecidableEq, Repr

/-- The state of the process: the channels, the local variables of the three goroutines, and
what the process has done to its surroundings (`writer`, `log`, `fetches`).  `selections` is
the history of the values that entered `pairsKeyCh`; no step reads it. -/
structure State (F : Type) where
  status : Status
  /-- the events in the channel `keysEvents`, which only `inputHandler` reads -/
  keysEvents : List KeyEvent
  pairsKeyCh : Option String
  displayModeCh : Option Int
  dataCh : Option (Data F)
  /-- the sends `inputHandler` has still to make for the event it is handling -/
  inputPending : List Send
  lastPairsKey : String
  /-- the value `dataWorker` is sending on `dataCh`, while that send has not gone through -/
  dataPending : Option (Data F)
  currentMode : Int
  writer : Writer F
  /-- the errors passed to `log.Println` -/
  log : List Error
  /-- the arguments of the calls of `getPrices` -/
  fetches : List String
  selections : List String
  deriving DecidableEq, Repr

/-- The state in which `main` calls `inputHandler`: `displayModeCh` holds the `0` that `main`
sent, `currentMode` is `-1`, `lastPairsKey` is empty. -/
def initial (F : Type) : State F :=
  { status := .running, keysEvents := [], pairsKeyCh := none, displayModeCh := some 0,
    dataCh := none, inputPending := [], lastPairsKey := "", dataPending := none,
    currentMode := -1, writer := [], log := [], fetches := [], selections := [] }

/-- One step of `inputHandler`: make the next send of the event in hand if its channel has
room, otherwise take the next event from `keysEvents` and handle it. -/
def inputHandler {F : Type} (s : State F) : State F :=
  match s.inputPending with
  | .pairsKey key :: rest =>
    match s.pairsKeyCh with
    | none => { s with pairsKeyCh := some key, inputPending := rest,
                       selections := s.selections ++ [key] }
    | some _ => s
  | .displayMode mode :: rest =>
    match s.displayModeCh with
    | none => { s with displayModeCh := some mode, inputPending := rest }
    | some _ => s
  | [] =>
    match s.keysEvents with
    | [] => s
    | event :: events =>
      match handleEvent event with
      | .panic e => { s with keysEvents := events, status := .panicked e }
      | .exit code => { s with keysEvents := events, status := .exited code }
      | .sends l => { s with keysEvents := events, inputPending := l }

/-- The inner `select` on `dataCh` with an empty `default`. -/
def drawPending {F : Type} (env : Env F) (now : Nat) (s : State F) : State F :=
  match s.dataCh with
  | some data =>
    match displayGraph env now data s.writer with
    | .returned w => { s with dataCh := none, writer := w }
    | .panicked w msg => { s with dataCh := none, writer := w, status := .panicked msg }
  | none => s

/-- One iteration of the loop of `displayWorker`. -/
def displayWorker {F : Type} (env : Env F) (now : Nat) (s : State F) : State F :=
  match s.displayModeCh with
  | some mode =>
    let s := { s with displayModeCh := none }
    if mode ≠ s.currentMode then
      let s := { s with currentMode := mode }
      if mode = 0 then { s with writer := displayMenu s.writer }
      else if mode = 1 then drawPending env now s
      else s
    else s
  | none =>
    if s.currentMode = 1 then drawPending env now s else s

/-- One iteration of the loop of `dataWorker` up to the send on `dataCh`: take a pending
selection, stop if there is no selection, otherwise call `getPrices`, log an error, and go on
to send.  While the send of the previous iteration has not gone through, nothing happens. -/
def dataWorker {F : Type} (env : Env F) (http : HttpResult) (s : State F) : State F :=
  match s.dataPending with
  | some _ => s
  | none =>
    let lastPairsKey := match s.pairsKeyCh with
      | some pairsKey => pairsKey
      | none => s.lastPairsKey
    let s := { s with pairsKeyCh := none, lastPairsKey := lastPairsKey }
    if lastPairsKey.length = 0 then s
    else
      let r := getPrices env http lastPairsKey
      let log := match r.err with
        | some e => s.log ++ [e]
        | none => s.log
      { s with log := log, fetches := s.fetches ++ [lastPairsKey],
               dataPending := some ⟨r.prices, r.pairs⟩ }

/-- The send `dataCh <- Data{...}` of `dataWorker`: it goes through when `dataCh` is empty. -/
def dataSend {F : Type} (s : State F) : State F :=
  match s.dataPending, s.dataCh with
  | some data, none => { s with dataCh := some data, dataPending := none }
  | _, _ => s

/-- One scheduling step: the keyboard delivers an event, or one goroutine moves. -/
inductive Label
  | key (event : KeyEvent)
  | input
  | display (now : Nat)
  | fetch (http : HttpResult)
  | publish

/-- The effect of one step; a process that has exited or panicked does nothing more. -/
def step {F : Type} (env : Env F) (s : State F) (l : Label) : State F :=
  match s.status with
  | .running =>
    match l with
    | .key event => { s with keysEvents := s.keysEvents ++ [event] }
    | .input => inputHandler s
    | .display now => displayWorker env now s
    | .fetch http => dataWorker env http s
    | .publish => dataSend s
  | _ => s

/-- The state after an interleaving, its steps taken from left to right. -/
def exec {F : Type} (env : Env F) (s : State F) (ls : List Label) : State F :=
  ls.foldl (step env) s

/-! ## Observations on the writer -/

/-- The number of draws a writer has seen: `displayMenu` and `displayGraph` each start a draw
with one `Flush()` and call it nowhere else. -/
def renders {F : Type} (w : Writer F) : Nat :=
  (w.filter (fun op => match op with
    | .Flush => true
    | _ => false)).length

/-- The symbol a call shows when it is the first line of a chart, the `Fprintf` of
`displayGraph`. -/
def chartSymbol {F : Type} : WriterOp F → Option String
  | .Fprintf false "%s: %.2f\n" [.str pairsKey, .float _] => some pairsKey
  | _ => none

/-- The symbols of the charts drawn on a writer, oldest first. -/
def charts {F : Type} (w : Writer F) : List String :=
  w.filterMap chartSymbol

/-- The symbol that an iteration of `dataWorker` starting in `s` passes to `getPrices`, after
its `select` on `pairsKeyCh`. -/
def selected {F : Type} (s : State F) : String :=
  match s.pairsKeyCh with
  | some pairsKey => pairsKey
  | none => s.lastPairsKey

/-- What holds of the selections in every state the process reaches: every value that enters
`pairsKeyCh` is a non-empty string, a value waiting in `pairsKeyCh` is the last that entered
it, and when none waits `lastPairsKey` is the last that entered it, or empty if none did. -/
def SelectionInv {F : Type} (s : State F) : Prop :=
  (∀ k ∈ s.selections, k.length ≠ 0) ∧
  (∀ k, Send.pairsKey k ∈ s.inputPending → k.length ≠ 0) ∧
  (∀ k, s.pairsKeyCh = some k → s.selections.getLast? = some k) ∧
  (s.pairsKeyCh = none → s.lastPairsKey = s.selections.getLast?.getD "")

/-- An interleaving of iterations of `dataWorker` and `displayWorker` alone, started in `s`, in
which every call of `getPrices` returns an error. -/
def errorTicks {F : Type} (env : Env F) : State F → List Label → Bool
  | _, [] => true
  | s, l :: ls =>
    (match l with
      | .display _ => true
      | .publish => true
      | .fetch http => (getPrices env http (selected s)).err.isSome
      | .key _ => false
      | .input => false) && errorTicks env (step env s l) ls

/-! ## The scenario `1`, backspace, `2` -/

/-- The sends `inputHandler` makes for one event. -/
def eventSends (event : KeyEvent) : List Send :=
  match handleEvent event with
  | .sends l => l
  | .panic _ => []
  | .exit _ => []

/-- The sends `inputHandler` makes for a sequence of events. -/
def sendsOf : List KeyEvent → List Send
  | [] => []
  | event :: events => eventSends event ++ sendsOf events

/-- The symbol of the chart that `displayGraph` draws for a value waiting to be drawn: none
for no value and for a value with no price. -/
def drawn {F : Type} : Option (Data F) → List String
  | none => []
  | some data => if data.prices.length = 0 then [] else [data.pairsKey]

/-- The value of a string of decimal digits, most significant first; `acc` is the value of
the digits already read. -/
def digitsValue : List Char → Nat → Option Nat
  | [], acc => some acc
  | c :: cs, acc =>
    if c.isDigit then digitsValue cs (10 * acc + (c.toNat - '0'.toNat)) else none

/-- A sample environment with whole-number prices: a price string parses when it is a
non-empty string of decimal digits, and the plot fails when a price is 10^19 or more, as
`asciigraph.Plot` does on the price `1e19`. -/
def sampleEnv : Env Nat where
  zero := 0
  parseFloat := fun s =>
    match s.data with
    | [] => .error "invalid syntax"
    | c :: cs =>
      match digitsValue (c :: cs) 0 with
      | some n => .ok n
      | none => .error "invalid syntax"
  plot := fun prices _ _ =>
    if prices.all (fun p => decide (p < 10000000000000000000)) then some "graph" else none
  format2f := fun n => Nat.repr n ++ ".00"
  timeFormat := fun _ layout => layout

/-- Sample `float64` values: the whole numbers and NaN. -/
inductive SampleFloat
  | num (n : Nat)
  | NaN
  deriving DecidableEq, Repr

/-- A sample environment whose prices are whole numbers or NaN: `strconv.ParseFloat` accepts
the string `NaN`, `fmt` writes NaN as `NaN` under `%.2f`, and the plot leaves a gap for it. -/
def nanEnv : Env SampleFloat where
  zero := .num 0
  parseFloat := fun s =>
    if s = "NaN" then .ok .NaN
    else
      match s.data with
      | [] => .error "invalid syntax"
      | c :: cs =>
        match digitsValue (c :: cs) 0 with
        | some n => .ok (.num n)
        | none => .error "invalid syntax"
  plot := fun _ _ _ => some "graph"
  format2f := fun x =>
    match x with
    | .num n => Nat.repr n ++ ".00"
    | .NaN => "NaN"
  timeFormat := fun _ layout => layout

/-- A sample trade with the given price string. -/
def sampleTrade (price : String) : Trade :=
  { ID := 1, Typ := "buy", Pair := "BTC_USD", Price := price, Amount := "1", Timestamp := 0 }

/-- A sample decoded body: `BTC_USD` and `LTC_USD` with the given price strings, `ETH_USD`
with no trade, nothing else. -/
def sampleBody (btc ltc : List String) : String → Option (List Trade) := fun pairs =>
  if pairs = "BTC_USD" then some (btc.map sampleTrade)
  else if pairs = "LTC_USD" then some (ltc.map sampleTrade)
  else if pairs = "ETH_USD" then some []
  else none

/-- A sample successful exchange: status 200 and the body `sampleBody btc ltc`. -/
def sampleOK (btc ltc : List String) : HttpResult :=
  .response 200 (.ok (sampleBody btc ltc))

/-- The interleaving in which `1` is pressed and `inputHandler` makes its two sends, the
display having first taken the `0` that `main` sent. -/
def selectBTC : List Label :=
  [.display 0, .key (runeKey '1'), .input, .input, .input]

/-- The interleaving in which `1` and then `2` are pressed between two iterations of
`dataWorker`: the send of `LTC_USD` waits until the iteration has taken `BTC_USD`. -/
def selectTwice : List Label :=
  [.display 0, .key (runeKey '1'), .key (runeKey '2'), .input, .input, .input,
   .display 1, .input, .input]

/-- The interleaving in which `1` is pressed, the display enters Chart mode, one fetch of
`BTC_USD` succeeds and its chart is drawn. -/
def showBTC : List Label :=
  selectBTC ++ [.display 1, .fetch (sampleOK ["100"] ["50"]), .publish, .display 2]

/-- Three iterations of `dataWorker` that fail (transport, status 500, malformed body), each
followed by its send and by an iteration of `displayWorker`. -/
def threeErrors : List Label :=
  [.fetch (.doError "timeout"), .publish, .display 3,
   .fetch (.response 500 (.error "")), .publish, .display 4,
   .fetch (.response 200 (.error "unexpected EOF")), .publish, .display 5]

/-- The interleaving in which `1` is pressed, the display enters Chart mode, and one fetch of
`BTC_USD` succeeds and is published, the display not having taken it yet. -/
def pendingBTC : List Label :=
  selectBTC ++ [.display 1, .fetch (sampleOK ["100"] ["50"]), .publish]

theorem getPricesLoop_ok {F : Type} (env : Env F) (trades : List Trade) :
    ∀ (ps done rest : List F),
      List.Forall₂ (fun t p => env.parseFloat t.Price = .ok p) trades ps →
      rest.length = trades.length →
      getPricesLoop env trades done.length (done ++ rest) = .ok (done ++ ps) := by
  induction trades with
  | nil =>
    intro ps done rest h hl
    cases h
    cases rest with
    | nil => simp [getPricesLoop]
    | cons a l => simp at hl
  | cons t ts ih =>
    intro ps done rest h hl
    cases h with
    | cons hp hps =>
      rename_i p ps
      cases rest with
      | nil => simp at hl
      | cons r rest =>
        have hlen : rest.length = ts.length := by simpa using hl
        have hset : (done ++ r :: rest).set done.length p = (done ++ [p]) ++ rest := by
          simp [List.set_append]
        have := ih ps (done ++ [p]) rest hps hlen
        simp only [getPricesLoop, hp, hset]
        simpa using this

theorem getPricesLoop_error {F : Type} (env : Env F) (trades : List Trade) :
    ∀ (i : Nat) (prices : List F),
      (∃ t ∈ trades, ∃ e, env.parseFloat t.Price = .error e) →
      ∃ e, getPricesLoop env trades i prices = .error e := by
  induction trades with
  | nil => intro i prices h; simp at h
  | cons t ts ih =>
    intro i prices h
    cases hp : env.parseFloat t.Price with
    | error e => exact ⟨.convertPrice e, by simp [getPricesLoop, hp]⟩
    | ok p =>
      have h2 : ∃ t ∈ ts, ∃ e, env.parseFloat t.Price = .error e := by
        obtain ⟨u, hu, e, he⟩ := h
        rcases List.mem_cons.1 hu with rfl | hu
        · rw [hp] at he; cases he
        · exact ⟨u, hu, e, he⟩
      obtain ⟨e, he⟩ := ih (i + 1) (prices.set i p) h2
      exact ⟨e, by simp [getPricesLoop, hp, he]⟩

theorem parsed_of_no_error {F : Type} (env : Env F) (trades : List Trade)
    (h : ¬ ∃ t ∈ trades, ∃ e, env.parseFloat t.Price = .error e) :
    ∃ ps, List.Forall₂ (fun t p => env.parseFloat t.Price = .ok p) trades ps := by
  induction trades with
  | nil => exact ⟨[], List.Forall₂.nil⟩
  | cons t ts ih =>
    have h2 : ¬ ∃ t ∈ ts, ∃ e, env.parseFloat t.Price = .error e := by
      rintro ⟨u, hu, e, he⟩
      exact h ⟨u, List.mem_cons_of_mem _ hu, e, he⟩
    obtain ⟨ps, hps⟩ := ih h2
    cases hp : env.parseFloat t.Price with
    | error e => exact absurd ⟨t, List.mem_cons_self _ _, e, hp⟩ h
    | ok p => exact ⟨p :: ps, List.Forall₂.cons hp hps⟩

theorem forall₂_index {α β : Type} (R : α → β → Prop) :
    ∀ (xs : List α) (ys : List β), List.Forall₂ R xs ys →
      ∀ (i : Nat) (x : α), xs[i]? = some x → ∃ y, ys[i]? = some y ∧ R x y := by
  intro xs ys h
  induction h with
  | nil => intro i x hx; simp at hx
  | cons hr _ ih =>
    intro i x hx
    cases i with
    | zero =>
      simp at hx
      subst hx
      exact ⟨_, by simp, hr⟩
    | succ n =>
      simp at hx
      simpa using ih n x hx

/-- The loop of `getPrices` on a response that holds `pairs`. -/
theorem getPrices_found {F : Type} (env : Env F) (body : String → Option (List Trade))
    (pairs : String) (trades : List Trade) (h : body pairs = some trades) :
    getPrices env (.response StatusOK (.ok body)) pairs =
      match getPricesLoop env trades 0 (List.replicate trades.length env.zero) with
      | .error e => ⟨[], "", some e⟩
      | .ok prices => ⟨prices, pairs, none⟩ := by
  simp [getPrices, h]

/-- The two outcomes of `getPrices` on a response that holds `s`. -/
theorem getPrices_found_cases {F : Type} (env : Env F)
    (body : String → Option (List Trade)) (s : String) (ts : List Trade)
    (h : body s = some ts) :
    ((∃ t ∈ ts, ∃ e, env.parseFloat t.Price = .error e) →
      ∃ e, getPrices env (.response StatusOK (.ok body)) s = ⟨[], "", some e⟩) ∧
    ((¬ ∃ t ∈ ts, ∃ e, env.parseFloat t.Price = .error e) →
      ∃ prices, getPrices env (.response StatusOK (.ok body)) s = ⟨prices, s, none⟩ ∧
        prices.length = ts.length ∧
        ∀ (i : Nat) (t : Trade), ts[i]? = some t →
          ∃ p, prices[i]? = some p ∧ env.parseFloat t.Price = .ok p) := by
  rw [getPrices_found env body s ts h]
  constructor
  · intro hbad
    obtain ⟨e, he⟩ := getPricesLoop_error env ts 0 (List.replicate ts.length env.zero) hbad
    exact ⟨e, by rw [he]⟩
  · intro hgood
    obtain ⟨ps, hps⟩ := parsed_of_no_error env ts hgood
    have hl := getPricesLoop_ok env ts ps [] (List.replicate ts.length env.zero) hps (by simp)
    simp only [List.length_nil, List.nil_append] at hl
    refine ⟨ps, by rw [hl], hps.length_eq.symm, ?_⟩
    exact forall₂_index _ ts ps hps

/-- Whenever `getPrices` returns an error, it returns the nil price list and the empty
symbol with it. -/
theorem getPrices_error_empty {F : Type} (env : Env F) (http : HttpResult) (pairs : String)
    (e : Error) (h : (getPrices env http pairs).err = some e) :
    (getPrices env http pairs).prices = [] ∧ (getPrices env http pairs).pairs = "" := by
  cases http with
  | requestError m => simp [getPrices]
  | doError m => simp [getPrices]
  | response code body =>
    by_cases hc : code = StatusOK
    · cases body with
      | error m => simp [getPrices, hc]
      | ok tr =>
        cases ht : tr pairs with
        | none => simp [getPrices, hc, ht]
        | some trades =>
          cases hl : getPricesLoop env trades 0 (List.replicate trades.length env.zero) with
          | error e => simp [getPrices, hc, ht, hl]
          | ok ps => simp [getPrices, hc, ht, hl] at h
    · simp [getPrices, hc]

/-- C3: `getPrices` is all-or-nothing over the decoded response.  On a response that holds
the key `s` with trade list `ts`: if the price string of some trade does not parse, the
result is an error with the nil price list and the empty symbol; otherwise the result is no
error, the symbol `s` itself, and a price list of exactly `len(ts)` elements whose `i`-th
element is the parsed price of the `i`-th trade. -/
theorem getPrices_all_or_nothing {F : Type} (env : Env F)
    (body : String → Option (List Trade)) (s : String) (ts : List Trade)
    (h : body s = some ts) :
    ((∃ t ∈ ts, ∃ e, env.parseFloat t.Price = .error e) →
      ∃ e, getPrices env (.response StatusOK (.ok body)) s = ⟨[], "", some e⟩) ∧
    ((¬ ∃ t ∈ ts, ∃ e, env.parseFloat t.Price = .error e) →
      ∃ prices, getPrices env (.response StatusOK (.ok body)) s = ⟨prices, s, none⟩ ∧
        prices.length = ts.length ∧
        ∀ (i : Nat) (t : Trade), ts[i]? = some t →
          ∃ p, prices[i]? = some p ∧ env.parseFloat t.Price = .ok p) :=
  getPrices_found_cases env body s ts h

/-- C3 at a response whose second price does not parse, and at one whose prices all parse. -/
theorem getPrices_all_or_nothing_witness :
    sampleBody ["100", "x"] [] "BTC_USD" = some [sampleTrade "100", sampleTrade "x"] ∧
    (getPrices sampleEnv (sampleOK ["100", "x"] []) "BTC_USD").prices = [] ∧
    (getPrices sampleEnv (sampleOK ["100", "x"] []) "BTC_USD").pairs = "" ∧
    (getPrices sampleEnv (sampleOK ["100", "x"] []) "BTC_USD").err
      = some (.convertPrice "invalid syntax") ∧
    getPrices sampleEnv (sampleOK ["100", "101"] []) "BTC_USD" = ⟨[100, 101], "BTC_USD", none⟩ ∧
    (((∃ t ∈ [sampleTrade "100", sampleTrade "x"], ∃ e,
          sampleEnv.parseFloat t.Price = .error e) →
        ∃ e, getPrices sampleEnv (.response StatusOK (.ok (sampleBody ["100", "x"] [])))
          "BTC_USD" = ⟨[], "", some e⟩) ∧
      ((¬ ∃ t ∈ [sampleTrade "100", sampleTrade "x"], ∃ e,
          sampleEnv.parseFloat t.Price = .error e) →
        ∃ prices, getPrices sampleEnv (.response StatusOK (.ok (sampleBody ["100", "x"] [])))
            "BTC_USD" = ⟨prices, "BTC_USD", none⟩ ∧
          prices.length = [sampleTrade "100", sampleTrade "x"].length ∧
          ∀ (i : Nat) (t : Trade), [sampleTrade "100", sampleTrade "x"][i]? = some t →
            ∃ p, prices[i]? = some p ∧ sampleEnv.parseFloat t.Price = .ok p)) :=
  ⟨by decide, by decide, by decide, by decide, by decide,
    getPrices_all_or_nothing sampleEnv (sampleBody ["100", "x"] []) "BTC_USD"
      [sampleTrade "100", sampleTrade "x"] (by decide)⟩

/-! ## C4 -/

/-- C4, the claim refuted: on a status-200 response whose decoded body maps `ETH_USD` to an
empty trade list, `getPrices` returns without error and the price list is empty. -/
theorem getPrices_empty_list_no_error :
    sampleBody [] [] "ETH_USD" = some [] ∧
    (getPrices sampleEnv (sampleOK [] []) "ETH_USD").err = none ∧
    (getPrices sampleEnv (sampleOK [] []) "ETH_USD").prices = [] := by
  decide

/-- C4 as amended: on a status-200 response with a decoded body, a result without error means
the body holds `s` and the price list has as many elements as the trade list of `s`, which
may be none; a body without `s` gives an error, and a body that maps `s` to the empty trade
list gives no error, the symbol `s` and the empty price list. -/
theorem getPrices_length_of_no_error {F : Type} (env : Env F)
    (body : String → Option (List Trade)) (s : String) :
    ((getPrices env (.response StatusOK (.ok body)) s).err = none →
      ∃ ts, body s = some ts ∧
        (getPrices env (.response StatusOK (.ok body)) s).prices.length = ts.length) ∧
    (body s = none →
      getPrices env (.response StatusOK (.ok body)) s = ⟨[], "", some (.emptyResponse s)⟩) ∧
    (body s = some [] →
      getPrices env (.response StatusOK (.ok body)) s = ⟨[], s, none⟩) := by
  refine ⟨?_, ?_, ?_⟩
  · intro h
    cases hb : body s with
    | none => simp [getPrices, hb] at h
    | some ts =>
      refine ⟨ts, rfl, ?_⟩
      by_cases hbad : ∃ t ∈ ts, ∃ e, env.parseFloat t.Price = .error e
      · obtain ⟨e, he⟩ := (getPrices_found_cases env body s ts hb).1 hbad
        rw [he] at h
        cases h
      · obtain ⟨ps, hps, hlen, _⟩ := (getPrices_found_cases env body s ts hb).2 hbad
        rw [hps]
        exact hlen
  · intro hb
    simp [getPrices, hb]
  · intro hb
    simp [getPrices, hb, getPricesLoop]

/-- C4 as amended, at the sample body: `BTC_USD` has two trades and two prices come back,
`XRP_USD` is absent, `ETH_USD` has no trade. -/
theorem getPrices_length_of_no_error_witness :
    (getPrices sampleEnv (.response StatusOK (.ok (sampleBody ["100", "101"] []))) "BTC_USD").err
      = none ∧
    sampleBody ["100", "101"] [] "XRP_USD" = none ∧
    sampleBody ["100", "101"] [] "ETH_USD" = some [] ∧
    (∃ ts, sampleBody ["100", "101"] [] "BTC_USD" = some ts ∧
      (getPrices sampleEnv (.response StatusOK (.ok (sampleBody ["100", "101"] [])))
        "BTC_USD").prices.length = ts.length) ∧
    getPrices sampleEnv (.response StatusOK (.ok (sampleBody ["100", "101"] []))) "XRP_USD"
      = ⟨[], "", some (.emptyResponse "XRP_USD")⟩ ∧
    getPrices sampleEnv (.response StatusOK (.ok (sampleBody ["100", "101"] []))) "ETH_USD"
      = ⟨[], "ETH_USD", none⟩ :=
  ⟨by decide, by decide, by decide,
    (getPrices_length_of_no_error sampleEnv (sampleBody ["100", "101"] []) "BTC_USD").1
      (by decide),
    (getPrices_length_of_no_error sampleEnv (sampleBody ["100", "101"] []) "XRP_USD").2.1
      (by decide),
    (getPrices_length_of_no_error sampleEnv (sampleBody ["100", "101"] []) "ETH_USD").2.2
      (by decide)⟩

/-! ## displayGraph and displayWorker -/

theorem displayGraph_nil {F : Type} (env : Env F) (now : Nat) (data : Data F)
    (writer : Writer F) (h : data.prices = []) :
    displayGraph env now data writer = .returned writer := by
  simp [displayGraph, h]

theorem last_index {F : Type} (prices : List F) (h : prices ≠ []) :
    ∃ last, prices[prices.length - 1]? = some last ∧ prices.getLast? = some last := by
  have hlen : prices.length ≠ 0 := by
    simpa [List.length_eq_zero] using h
  have hlt : prices.length - 1 < prices.length := by omega
  refine ⟨prices[prices.length - 1], ?_, ?_⟩
  · exact List.getElem?_eq_getElem hlt
  · rw [List.getLast?_eq_getElem?]
    exact List.getElem?_eq_getElem hlt

theorem displayGraph_cons {F : Type} (env : Env F) (now : Nat) (data : Data F)
    (writer : Writer F) (h : data.prices ≠ []) :
    ∃ last, data.prices[data.prices.length - 1]? = some last ∧
      data.prices.getLast? = some last ∧
      (∀ graph, env.plot data.prices 100 10 = some graph →
        displayGraph env now data writer
          = .returned (writer ++ .Flush :: graphOps env now graph data.pairsKey last)) ∧
      (env.plot data.prices 100 10 = none →
        displayGraph env now data writer = .panicked (writer ++ [.Flush]) "asciigraph.Plot") := by
  obtain ⟨last, h1, h2⟩ := last_index data.prices h
  have hlen : data.prices.length ≠ 0 := by
    simpa [List.length_eq_zero] using h
  refine ⟨last, h1, h2, ?_, ?_⟩
  · intro graph hg
    simp [displayGraph, hlen, hg, h1]
  · intro hg
    simp [displayGraph, hlen, hg]

theorem renders_append {F : Type} (w v : Writer F) :
    renders (w ++ v) = renders w + renders v := by
  simp [renders]

theorem renders_menuOps (F : Type) : renders (menuOps F) = 1 := by
  simp [renders, menuOps]

theorem renders_graphOps {F : Type} (env : Env F) (t : Nat) (graph : String)
    (pairsKey : String) (last : F) :
    renders (.Flush :: graphOps env t graph pairsKey last) = 1 := by
  simp [renders, graphOps]

theorem charts_append {F : Type} (w v : Writer F) : charts (w ++ v) = charts w ++ charts v := by
  simp [charts]

theorem charts_graphOps {F : Type} (env : Env F) (t : Nat) (graph : String)
    (pairsKey : String) (last : F) :
    charts (.Flush :: graphOps env t graph pairsKey last) = [pairsKey] := by
  simp [charts, graphOps, chartSymbol]

/-- The two ways a call of `displayGraph` can end, with what each leaves on the writer. -/
theorem displayGraph_cases {F : Type} (env : Env F) (now : Nat) (data : Data F)
    (writer : Writer F) :
    (∃ w, displayGraph env now data writer = .returned w ∧
      charts w = charts writer ++ drawn (some data) ∧ renders w ≤ renders writer + 1) ∨
    (∃ w msg, displayGraph env now data writer = .panicked w msg ∧
      charts w = charts writer ∧ renders w ≤ renders writer + 1) := by
  by_cases hp : data.prices = []
  · left
    refine ⟨writer, displayGraph_nil env now data writer hp, ?_, by omega⟩
    simp [drawn, hp]
  · obtain ⟨last, _, _, h3, h4⟩ := displayGraph_cons env now data writer hp
    have hlen : data.prices.length ≠ 0 := by simpa [List.length_eq_zero] using hp
    cases hg : env.plot data.prices 100 10 with
    | some graph =>
      left
      refine ⟨_, h3 graph hg, ?_, ?_⟩
      · rw [charts_append, charts_graphOps]
        simp [drawn, hlen]
      · rw [renders_append, renders_graphOps]
    | none =>
      right
      refine ⟨_, _, h4 hg, ?_, ?_⟩
      · simp [charts, chartSymbol]
      · simp [renders]

/-- The three ways the inner `select` on `dataCh` can go. -/
theorem drawPending_cases {F : Type} (env : Env F) (now : Nat) (s : State F) :
    (s.dataCh = none ∧ drawPending env now s = s) ∨
    (∃ data w, s.dataCh = some data ∧ displayGraph env now data s.writer = .returned w ∧
      drawPending env now s = { s with dataCh := none, writer := w }) ∨
    (∃ data w msg, s.dataCh = some data ∧
      displayGraph env now data s.writer = .panicked w msg ∧
      drawPending env now s
        = { s with dataCh := none, writer := w, status := .panicked msg }) := by
  cases hd : s.dataCh with
  | none => exact Or.inl ⟨rfl, by simp [drawPending, hd]⟩
  | some data =>
    cases hg : displayGraph env now data s.writer with
    | returned w => exact Or.inr (Or.inl ⟨data, w, rfl, hg, by simp [drawPending, hd, hg]⟩)
    | panicked w msg =>
      exact Or.inr (Or.inr ⟨data, w, msg, rfl, hg, by simp [drawPending, hd, hg]⟩)

theorem renders_drawPending {F : Type} (env : Env F) (now : Nat) (s : State F) :
    renders (drawPending env now s).writer ≤ renders s.writer + 1 := by
  rcases drawPending_cases env now s with
    ⟨_, he⟩ | ⟨data, w, _, hw, he⟩ | ⟨data, w, msg, _, hw, he⟩
  · rw [he]; omega
  · rw [he]
    rcases displayGraph_cases env now data s.writer with
      ⟨w', hw', _, hr⟩ | ⟨w', msg', hw', _, _⟩
    · rw [hw] at hw'; cases hw'; exact hr
    · rw [hw] at hw'; cases hw'
  · rw [he]
    rcases displayGraph_cases env now data s.writer with
      ⟨w', hw', _, _⟩ | ⟨w', msg', hw', _, hr⟩
    · rw [hw] at hw'; cases hw'
    · rw [hw] at hw'; cases hw'; exact hr

theorem drawPending_currentMode {F : Type} (env : Env F) (now : Nat) (s : State F) :
    (drawPending env now s).currentMode = s.currentMode := by
  rcases drawPending_cases env now s with
    ⟨_, he⟩ | ⟨data, w, _, _, he⟩ | ⟨data, w, msg, _, _, he⟩ <;> rw [he]

/-- A mode change to the current mode: the tick takes it from the channel and does nothing
else. -/
theorem displayWorker_same_mode {F : Type} (env : Env F) (now : Nat) (s : State F) (m : Int)
    (hm : s.currentMode = m) (hc : s.displayModeCh = some m) :
    displayWorker env now s = { s with displayModeCh := none } := by
  simp [displayWorker, hc, hm]

/-! ## C5 -/

/-- C5: for a Data value whose price list is empty, `displayGraph` makes no call on the writer,
whatever the writer holds; and a `displayWorker` tick that takes such a value from `dataCh`,
in whatever mode, leaves the writer as it was. -/
theorem empty_series_never_drawn {F : Type} (env : Env F) (now : Nat) (data : Data F)
    (h : data.prices = []) :
    (∀ writer : Writer F, displayGraph env now data writer = .returned writer) ∧
    (∀ s : State F, s.dataCh = some data → (displayWorker env now s).dataCh = none →
      (displayWorker env now s).writer = s.writer ∧
      (displayWorker env now s).status = s.status) := by
  refine ⟨fun writer => displayGraph_nil env now data writer h, ?_⟩
  intro s hd
  have hg := displayGraph_nil env now data s.writer h
  cases hc : s.displayModeCh with
  | none =>
    by_cases h1 : s.currentMode = 1
    · simp [displayWorker, hc, h1, drawPending, hd, hg]
    · simp [displayWorker, hc, h1, hd]
  | some mode =>
    by_cases h1 : mode = s.currentMode
    · simp [displayWorker, hc, h1, hd]
    · by_cases h0 : mode = 0
      · subst h0
        simp [displayWorker, hc, h1, hd]
      · by_cases h2 : mode = 1
        · subst h2
          simp [displayWorker, hc, h1, drawPending, hd, hg]
        · simp [displayWorker, hc, h1, h0, h2, hd]

/-- C5 at a state in Chart mode whose `dataCh` holds the empty Data value: the tick takes the
value and the writer stays as it was. -/
theorem empty_series_never_drawn_witness :
    (⟨[], ""⟩ : Data Nat).prices = [] ∧
    (displayWorker sampleEnv 7
      { initial Nat with displayModeCh := none, currentMode := 1,
                         dataCh := some ⟨[], ""⟩ }).dataCh = none ∧
    (displayWorker sampleEnv 7
      { initial Nat with displayModeCh := none, currentMode := 1,
                         dataCh := some ⟨[], ""⟩ }).writer = [] ∧
    (displayWorker sampleEnv 7
      { initial Nat with displayModeCh := none, currentMode := 1,
                         dataCh := some ⟨[], ""⟩ }).status = .running :=
  ⟨rfl, by decide,
    (empty_series_never_drawn sampleEnv 7 ⟨[], ""⟩ rfl).2
      { initial Nat with displayModeCh := none, currentMode := 1, dataCh := some ⟨[], ""⟩ }
      rfl (by decide)⟩

/-! ## C6 -/

/-- C6: when the mode change taken from `displayModeCh` equals the current mode `m` (in
particular Menu = 0 and Chart = 1), the tick only empties `displayModeCh`: the mode stays
`m`, the writer and `dataCh` are untouched.  Hence when ModeChange(Chart) is delivered on two
consecutive ticks, whatever `dataCh` holds at either, the second tick draws nothing and the
two together draw at most once. -/
theorem modeChange_idempotent {F : Type} (env : Env F) :
    (∀ (now : Nat) (s : State F) (m : Int), s.currentMode = m → s.displayModeCh = some m →
      displayWorker env now s = { s with displayModeCh := none } ∧
      (displayWorker env now s).currentMode = m ∧
      (displayWorker env now s).writer = s.writer ∧
      (displayWorker env now s).dataCh = s.dataCh) ∧
    (∀ (now₁ now₂ : Nat) (s : State F) (d : Option (Data F)),
      (displayWorker env now₂
          { displayWorker env now₁ { s with displayModeCh := some 1 } with
            displayModeCh := some 1, dataCh := d }).writer
        = (displayWorker env now₁ { s with displayModeCh := some 1 }).writer ∧
      (displayWorker env now₂
          { displayWorker env now₁ { s with displayModeCh := some 1 } with
            displayModeCh := some 1, dataCh := d }).dataCh = d ∧
      renders (displayWorker env now₁ { s with displayModeCh := some 1 }).writer
        ≤ renders s.writer + 1) := by
  constructor
  · intro now s m hm hc
    have h := displayWorker_same_mode env now s m hm hc
    rw [h]
    exact ⟨rfl, hm, rfl, rfl⟩
  · intro now₁ now₂ s d
    have hmode : (displayWorker env now₁ { s with displayModeCh := some 1 }).currentMode = 1 := by
      by_cases h1 : s.currentMode = 1
      · simp [displayWorker, h1]
      · have h1' : ¬ (1 : Int) = s.currentMode := fun h => h1 h.symm
        simp [displayWorker, h1', drawPending_currentMode]
    have hsame := displayWorker_same_mode env now₂
      { displayWorker env now₁ { s with displayModeCh := some 1 } with
        displayModeCh := some 1, dataCh := d } 1 hmode rfl
    refine ⟨by rw [hsame], by rw [hsame], ?_⟩
    by_cases h1 : s.currentMode = 1
    · simp [displayWorker, h1]
    · have h1' : ¬ (1 : Int) = s.currentMode := fun h => h1 h.symm
      simp only [displayWorker, ne_eq, h1', not_false_eq_true, ↓reduceIte]
      simpa using renders_drawPending env now₁
        { s with displayModeCh := none, currentMode := 1 }

/-- C6 in Menu mode with ModeChange(Menu) pending and a series waiting in `dataCh`. -/
theorem modeChange_idempotent_witness :
    displayWorker sampleEnv 3
        { initial Nat with currentMode := 0, displayModeCh := some 0,
                           dataCh := some ⟨[5], "BTC_USD"⟩ }
      = { initial Nat with currentMode := 0, displayModeCh := none,
                           dataCh := some ⟨[5], "BTC_USD"⟩ } :=
  ((modeChange_idempotent sampleEnv).1 3
    { initial Nat with currentMode := 0, displayModeCh := some 0,
                       dataCh := some ⟨[5], "BTC_USD"⟩ } 0 rfl rfl).1

/-! ## C10 -/

theorem sprintf_first_line {F : Type} (env : Env F) (pairsKey : String) (last : F) :
    sprintf env "%s: %.2f\n".data [.str pairsKey, .float last]
      = pairsKey ++ ": " ++ env.format2f last ++ "\n" := by
  have hf : "%s: %.2f\n".data = ['%', 's', ':', ' ', '%', '.', '2', 'f', '\n'] := rfl
  rw [hf]
  simp only [sprintf]
  apply String.ext
  simp [String.data_append, String.singleton]

/-- C10, the claim refuted.  A price string `NaN` parses, and for the series 100, 101, NaN
of `BTC_USD` the first line `displayGraph` writes is `BTC_USD: NaN`: the last element is not
shown with two decimal places.  And for the series 10^19, on which the plot panics,
`displayGraph` flushes and writes no line at all. -/
theorem first_line_not_two_decimals :
    getPrices nanEnv (sampleOK ["100", "101", "NaN"] []) "BTC_USD"
      = ⟨[.num 100, .num 101, .NaN], "BTC_USD", none⟩ ∧
    displayGraph nanEnv 0 ⟨[.num 100, .num 101, .NaN], "BTC_USD"⟩ []
      = .returned (.Flush :: graphOps nanEnv 0 "graph" "BTC_USD" .NaN) ∧
    (graphOps nanEnv 0 "graph" "BTC_USD" .NaN)[0]?
      = some (.Fprintf false "%s: %.2f\n" [.str "BTC_USD", .float .NaN]) ∧
    sprintf nanEnv "%s: %.2f\n".data [.str "BTC_USD", .float .NaN] = "BTC_USD: NaN\n" ∧
    twoDecimals (nanEnv.format2f .NaN) = false ∧
    getPrices sampleEnv (sampleOK ["10000000000000000000"] []) "BTC_USD"
      = ⟨[10000000000000000000], "BTC_USD", none⟩ ∧
    displayGraph sampleEnv 0 ⟨[10000000000000000000], "BTC_USD"⟩ []
      = .panicked [.Flush] "asciigraph.Plot" := by
  decide

/-- C10 as amended: for a Data value with a non-empty price list, the index `len(prices)-1` is
in range and the element there is the last element of the list.  When `asciigraph.Plot`
returns, the first call `displayGraph` makes after its flush is the `Fprintf` with format
`%s: %.2f` and operands the symbol of the Data and that last element, which writes the
symbol, then `: `, then the last element as `fmt` writes it under `%.2f`.  When
`asciigraph.Plot` panics, `displayGraph` has flushed and writes no line. -/
theorem displayGraph_first_line {F : Type} (env : Env F) (now : Nat) (data : Data F)
    (writer : Writer F) (h : data.prices ≠ []) :
    ∃ last, data.prices[data.prices.length - 1]? = some last ∧
      data.prices.getLast? = some last ∧
      (∀ graph, env.plot data.prices 100 10 = some graph →
        ∃ rest, displayGraph env now data writer
          = .returned (writer ++ .Flush ::
              .Fprintf false "%s: %.2f\n" [.str data.pairsKey, .float last] :: rest)) ∧
      sprintf env "%s: %.2f\n".data [.str data.pairsKey, .float last]
        = data.pairsKey ++ ": " ++ env.format2f last ++ "\n" ∧
      (env.plot data.prices 100 10 = none →
        displayGraph env now data writer
          = .panicked (writer ++ [.Flush]) "asciigraph.Plot") := by
  obtain ⟨last, h1, h2, h3, h4⟩ := displayGraph_cons env now data writer h
  refine ⟨last, h1, h2, ?_, sprintf_first_line env data.pairsKey last, h4⟩
  intro graph hg
  exact ⟨_, by rw [h3 graph hg]; rfl⟩

/-- C10 as amended, on the series 100, 101, 102 of `BTC_USD`: the plot returns and the line
shows 102 with two decimals. -/
theorem displayGraph_first_line_witness :
    (⟨[100, 101, 102], "BTC_USD"⟩ : Data Nat).prices ≠ [] ∧
    sampleEnv.plot [100, 101, 102] 100 10 = some "graph" ∧
    displayGraph sampleEnv 0 ⟨[100, 101, 102], "BTC_USD"⟩ []
      = .returned (.Flush :: graphOps sampleEnv 0 "graph" "BTC_USD" 102) ∧
    sprintf sampleEnv "%s: %.2f\n".data [.str "BTC_USD", .float 102] = "BTC_USD: 102.00\n" ∧
    twoDecimals (sampleEnv.format2f 102) = true ∧
    ∃ last, (⟨[100, 101, 102], "BTC_USD"⟩ : Data Nat).prices[
        (⟨[100, 101, 102], "BTC_USD"⟩ : Data Nat).prices.length - 1]? = some last ∧
      (⟨[100, 101, 102], "BTC_USD"⟩ : Data Nat).prices.getLast? = some last ∧
      (∀ graph, sampleEnv.plot (⟨[100, 101, 102], "BTC_USD"⟩ : Data Nat).prices 100 10
          = some graph →
        ∃ rest, displayGraph sampleEnv 0 ⟨[100, 101, 102], "BTC_USD"⟩ []
          = .returned ([] ++ .Flush ::
              .Fprintf false "%s: %.2f\n"
                [.str (⟨[100, 101, 102], "BTC_USD"⟩ : Data Nat).pairsKey, .float last]
                :: rest)) ∧
      sprintf sampleEnv "%s: %.2f\n".data
          [.str (⟨[100, 101, 102], "BTC_USD"⟩ : Data Nat).pairsKey, .float last]
        = (⟨[100, 101, 102], "BTC_USD"⟩ : Data Nat).pairsKey ++ ": "
            ++ sampleEnv.format2f last ++ "\n" ∧
      (sampleEnv.plot (⟨[100, 101, 102], "BTC_USD"⟩ : Data Nat).prices 100 10 = none →
        displayGraph sampleEnv 0 ⟨[100, 101, 102], "BTC_USD"⟩ []
          = .panicked ([] ++ [.Flush]) "asciigraph.Plot") :=
  ⟨by decide, by decide, by decide, by decide, by decide,
    displayGraph_first_line sampleEnv 0 ⟨[100, 101, 102], "BTC_USD"⟩ [] (by decide)⟩

/-! ## C8 -/

/-- An iteration of `dataWorker` whose call of `getPrices` returns an error. -/
theorem dataWorker_error {F : Type} (env : Env F) (http : HttpResult) (s : State F) (e : Error)
    (hidle : s.dataPending = none) (hsel : (selected s).length ≠ 0)
    (herr : (getPrices env http (selected s)).err = some e) :
    dataWorker env http s =
      { s with pairsKeyCh := none, lastPairsKey := selected s, log := s.log ++ [e],
               fetches := s.fetches ++ [selected s], dataPending := some ⟨[], ""⟩ } := by
  obtain ⟨hp, hk⟩ := getPrices_error_empty env http (selected s) e herr
  unfold selected at hsel herr hp hk
  unfold selected
  cases hc : s.pairsKeyCh with
  | none =>
    rw [hc] at hsel herr hp hk
    simp only at hsel herr hp hk
    simp [dataWorker, hidle, hc, hsel, herr, hp, hk]
  | some k =>
    rw [hc] at hsel herr hp hk
    simp only at hsel herr hp hk
    simp [dataWorker, hidle, hc, hsel, herr, hp, hk]

/-- C1, the claim refuted: `1` is pressed and delivered, then `dataWorker` makes one iteration
in which `client.Do` fails.  `dataCh` was empty before it and holds a Data value after it. -/
theorem failed_fetch_fills_dataCh :
    (exec sampleEnv (initial Nat) selectBTC).dataCh = none ∧
    selected (exec sampleEnv (initial Nat) selectBTC) = "BTC_USD" ∧
    (getPrices sampleEnv (.doError "timeout") "BTC_USD").err = some (.clientDo "timeout") ∧
    (exec sampleEnv (initial Nat) (selectBTC ++ [.fetch (.doError "timeout"), .publish])).log
      = [.clientDo "timeout"] ∧
    (exec sampleEnv (initial Nat) (selectBTC ++ [.fetch (.doError "timeout"), .publish])).dataCh
      = some ⟨[], ""⟩ := by
  decide

/-- C1 as amended: on an iteration of `dataWorker` on which a symbol is selected and `getPrices`
returns an error, `dataWorker` logs the error and goes on to send the Data value with the nil
price list and the empty symbol on `dataCh`; the send goes through once `dataCh` is empty,
and `displayGraph` draws nothing for that value. -/
theorem error_tick_publishes_empty {F : Type} (env : Env F) (http : HttpResult) (s : State F)
    (e : Error) (hidle : s.dataPending = none) (hsel : (selected s).length ≠ 0)
    (herr : (getPrices env http (selected s)).err = some e) :
    (dataWorker env http s).log = s.log ++ [e] ∧
    (dataWorker env http s).dataPending = some ⟨[], ""⟩ ∧
    (dataWorker env http s).dataCh = s.dataCh ∧
    (s.dataCh = none → (dataSend (dataWorker env http s)).dataCh = some ⟨[], ""⟩ ∧
      (dataSend (dataWorker env http s)).dataPending = none) ∧
    (∀ (now : Nat) (writer : Writer F),
      displayGraph env now ⟨[], ""⟩ writer = .returned writer) := by
  rw [dataWorker_error env http s e hidle hsel herr]
  refine ⟨rfl, rfl, rfl, ?_, ?_⟩
  · intro hd
    simp [dataSend, hd]
  · intro now writer
    exact displayGraph_nil env now _ writer rfl

/-- C1 as amended, after `1` was pressed and delivered, with a failing `client.Do`. -/
theorem error_tick_publishes_empty_witness :
    (exec sampleEnv (initial Nat) selectBTC).dataPending = none ∧
    (selected (exec sampleEnv (initial Nat) selectBTC)).length ≠ 0 ∧
    (getPrices sampleEnv (.doError "timeout")
      (selected (exec sampleEnv (initial Nat) selectBTC))).err = some (.clientDo "timeout") ∧
    (dataWorker sampleEnv (.doError "timeout") (exec sampleEnv (initial Nat) selectBTC)).log
      = (exec sampleEnv (initial Nat) selectBTC).log ++ [.clientDo "timeout"] ∧
    (dataWorker sampleEnv (.doError "timeout")
      (exec sampleEnv (initial Nat) selectBTC)).dataPending = some ⟨[], ""⟩ :=
  ⟨by decide, by decide, by decide,
    (error_tick_publishes_empty sampleEnv (.doError "timeout")
      (exec sampleEnv (initial Nat) selectBTC) (.clientDo "timeout")
      (by decide) (by decide) (by decide)).1,
    (error_tick_publishes_empty sampleEnv (.doError "timeout")
      (exec sampleEnv (initial Nat) selectBTC) (.clientDo "timeout")
      (by decide) (by decide) (by decide)).2.1⟩

/-! ## Frame lemmas for the goroutines -/

theorem exec_cons {F : Type} (env : Env F) (s : State F) (l : Label) (ls : List Label) :
    exec env s (l :: ls) = exec env (step env s l) ls := rfl

theorem exec_nil {F : Type} (env : Env F) (s : State F) : exec env s [] = s := rfl

theorem drawPending_frame {F : Type} (env : Env F) (now : Nat) (s : State F) :
    (drawPending env now s).keysEvents = s.keysEvents ∧
    (drawPending env now s).pairsKeyCh = s.pairsKeyCh ∧
    (drawPending env now s).displayModeCh = s.displayModeCh ∧
    (drawPending env now s).inputPending = s.inputPending ∧
    (drawPending env now s).lastPairsKey = s.lastPairsKey ∧
    (drawPending env now s).dataPending = s.dataPending ∧
    (drawPending env now s).log = s.log ∧
    (drawPending env now s).fetches = s.fetches ∧
    (drawPending env now s).selections = s.selections := by
  rcases drawPending_cases env now s with
    ⟨_, he⟩ | ⟨data, w, _, _, he⟩ | ⟨data, w, msg, _, _, he⟩ <;> rw [he] <;> simp

theorem displayWorker_idle {F : Type} (env : Env F) (now : Nat) (s : State F)
    (hc : s.displayModeCh = none) (hm : s.currentMode ≠ 1) :
    displayWorker env now s = s := by
  simp [displayWorker, hc, hm]

theorem displayWorker_steady {F : Type} (env : Env F) (now : Nat) (s : State F)
    (hc : s.displayModeCh = none) (hm : s.currentMode = 1) :
    displayWorker env now s = drawPending env now s := by
  simp [displayWorker, hc, hm]

theorem displayWorker_menu {F : Type} (env : Env F) (now : Nat) (s : State F)
    (hc : s.displayModeCh = some 0) (hm : s.currentMode ≠ 0) :
    displayWorker env now s
      = { s with displayModeCh := none, currentMode := 0, writer := displayMenu s.writer } := by
  have hm' : ¬ (0 : Int) = s.currentMode := fun h => hm h.symm
  simp [displayWorker, hc, hm']

theorem displayWorker_chart {F : Type} (env : Env F) (now : Nat) (s : State F)
    (hc : s.displayModeCh = some 1) (hm : s.currentMode ≠ 1) :
    displayWorker env now s
      = drawPending env now { s with displayModeCh := none, currentMode := 1 } := by
  have hm' : ¬ (1 : Int) = s.currentMode := fun h => hm h.symm
  simp [displayWorker, hc, hm']

theorem displayWorker_other {F : Type} (env : Env F) (now : Nat) (s : State F) (m : Int)
    (hc : s.displayModeCh = some m) (hm : s.currentMode ≠ m) (h0 : m ≠ 0) (h1 : m ≠ 1) :
    displayWorker env now s = { s with displayModeCh := none, currentMode := m } := by
  have hm' : ¬ m = s.currentMode := fun h => hm h.symm
  simp [displayWorker, hc, hm', h0, h1]

/-- The six ways an iteration of `displayWorker` can go. -/
theorem displayWorker_cases {F : Type} (env : Env F) (now : Nat) (s : State F) :
    (s.displayModeCh = none ∧ s.currentMode ≠ 1 ∧ displayWorker env now s = s) ∨
    (s.displayModeCh = none ∧ s.currentMode = 1 ∧
      displayWorker env now s = drawPending env now s) ∨
    (s.displayModeCh = some s.currentMode ∧
      displayWorker env now s = { s with displayModeCh := none }) ∨
    (s.displayModeCh = some 0 ∧ s.currentMode ≠ 0 ∧
      displayWorker env now s
        = { s with displayModeCh := none, currentMode := 0,
                   writer := displayMenu s.writer }) ∨
    (s.displayModeCh = some 1 ∧ s.currentMode ≠ 1 ∧
      displayWorker env now s
        = drawPending env now { s with displayModeCh := none, currentMode := 1 }) ∨
    (∃ m, s.displayModeCh = some m ∧ s.currentMode ≠ m ∧ m ≠ 0 ∧ m ≠ 1 ∧
      displayWorker env now s = { s with displayModeCh := none, currentMode := m }) := by
  cases hc : s.displayModeCh with
  | none =>
    by_cases h1 : s.currentMode = 1
    · exact Or.inr (Or.inl ⟨rfl, h1, displayWorker_steady env now s hc h1⟩)
    · exact Or.inl ⟨rfl, h1, displayWorker_idle env now s hc h1⟩
  | some mode =>
    by_cases hm : s.currentMode = mode
    · refine Or.inr (Or.inr (Or.inl ⟨by rw [hm], ?_⟩))
      exact displayWorker_same_mode env now s mode hm hc
    · by_cases h0 : mode = 0
      · subst h0
        exact Or.inr (Or.inr (Or.inr (Or.inl ⟨rfl, hm, displayWorker_menu env now s hc hm⟩)))
      · by_cases h1 : mode = 1
        · subst h1
          exact Or.inr (Or.inr (Or.inr (Or.inr (Or.inl
            ⟨rfl, hm, displayWorker_chart env now s hc hm⟩))))
        · exact Or.inr (Or.inr (Or.inr (Or.inr (Or.inr
            ⟨mode, rfl, hm, h0, h1, displayWorker_other env now s mode hc hm h0 h1⟩))))

theorem displayWorker_frame {F : Type} (env : Env F) (now : Nat) (s : State F) :
    (displayWorker env now s).keysEvents = s.keysEvents ∧
    (displayWorker env now s).pairsKeyCh = s.pairsKeyCh ∧
    (displayWorker env now s).inputPending = s.inputPending ∧
    (displayWorker env now s).lastPairsKey = s.lastPairsKey ∧
    (displayWorker env now s).dataPending = s.dataPending ∧
    (displayWorker env now s).log = s.log ∧
    (displayWorker env now s).fetches = s.fetches ∧
    (displayWorker env now s).selections = s.selections := by
  have pick : ∀ t : State F,
      (drawPending env now t).keysEvents = t.keysEvents ∧
      (drawPending env now t).pairsKeyCh = t.pairsKeyCh ∧
      (drawPending env now t).inputPending = t.inputPending ∧
      (drawPending env now t).lastPairsKey = t.lastPairsKey ∧
      (drawPending env now t).dataPending = t.dataPending ∧
      (drawPending env now t).log = t.log ∧
      (drawPending env now t).fetches = t.fetches ∧
      (drawPending env now t).selections = t.selections := by
    intro t
    have h := drawPending_frame env now t
    exact ⟨h.1, h.2.1, h.2.2.2.1, h.2.2.2.2.1, h.2.2.2.2.2.1,
      h.2.2.2.2.2.2.1, h.2.2.2.2.2.2.2.1, h.2.2.2.2.2.2.2.2⟩
  rcases displayWorker_cases env now s with
    ⟨_, _, h⟩ | ⟨_, _, h⟩ | ⟨_, h⟩ | ⟨_, _, h⟩ | ⟨_, _, h⟩ | ⟨m, _, _, _, _, h⟩
  · rw [h]; simp
  · rw [h]; exact pick s
  · rw [h]; simp
  · rw [h]; simp
  · rw [h]; exact pick _
  · rw [h]; simp

/-- The eight ways a step of `inputHandler` can go. -/
theorem inputHandler_cases {F : Type} (s : State F) :
    (∃ key rest, s.inputPending = .pairsKey key :: rest ∧ s.pairsKeyCh = none ∧
      inputHandler s = { s with pairsKeyCh := some key, inputPending := rest,
                                selections := s.selections ++ [key] }) ∨
    (∃ key rest, s.inputPending = .pairsKey key :: rest ∧ s.pairsKeyCh ≠ none ∧
      inputHandler s = s) ∨
    (∃ mode rest, s.inputPending = .displayMode mode :: rest ∧ s.displayModeCh = none ∧
      inputHandler s = { s with displayModeCh := some mode, inputPending := rest }) ∨
    (∃ mode rest, s.inputPending = .displayMode mode :: rest ∧ s.displayModeCh ≠ none ∧
      inputHandler s = s) ∨
    (s.inputPending = [] ∧ s.keysEvents = [] ∧ inputHandler s = s) ∨
    (∃ event events e, s.inputPending = [] ∧ s.keysEvents = event :: events ∧
      handleEvent event = .panic e ∧
      inputHandler s = { s with keysEvents := events, status := .panicked e }) ∨
    (∃ event events code, s.inputPending = [] ∧ s.keysEvents = event :: events ∧
      handleEvent event = .exit code ∧
      inputHandler s = { s with keysEvents := events, status := .exited code }) ∨
    (∃ event events l, s.inputPending = [] ∧ s.keysEvents = event :: events ∧
      handleEvent event = .sends l ∧
      inputHandler s = { s with keysEvents := events, inputPending := l }) := by
  cases hp : s.inputPending with
  | nil =>
    cases hk : s.keysEvents with
    | nil =>
      exact Or.inr (Or.inr (Or.inr (Or.inr (Or.inl ⟨rfl, rfl, by simp [inputHandler, hp, hk]⟩))))
    | cons event events =>
      cases he : handleEvent event with
      | panic e =>
        exact Or.inr (Or.inr (Or.inr (Or.inr (Or.inr (Or.inl
          ⟨event, events, e, rfl, rfl, he, by simp [inputHandler, hp, hk, he]⟩)))))
      | exit code =>
        exact Or.inr (Or.inr (Or.inr (Or.inr (Or.inr (Or.inr (Or.inl
          ⟨event, events, code, rfl, rfl, he, by simp [inputHandler, hp, hk, he]⟩))))))
      | sends l =>
        exact Or.inr (Or.inr (Or.inr (Or.inr (Or.inr (Or.inr (Or.inr
          ⟨event, events, l, rfl, rfl, he, by simp [inputHandler, hp, hk, he]⟩))))))
  | cons send rest =>
    cases send with
    | pairsKey key =>
      cases hc : s.pairsKeyCh with
      | none => exact Or.inl ⟨key, rest, rfl, rfl, by simp [inputHandler, hp, hc]⟩
      | some k =>
        exact Or.inr (Or.inl ⟨key, rest, rfl, by simp, by simp [inputHandler, hp, hc]⟩)
    | displayMode mode =>
      cases hc : s.displayModeCh with
      | none =>
        exact Or.inr (Or.inr (Or.inl ⟨mode, rest, rfl, rfl, by simp [inputHandler, hp, hc]⟩))
      | some m =>
        exact Or.inr (Or.inr (Or.inr (Or.inl
          ⟨mode, rest, rfl, by simp, by simp [inputHandler, hp, hc]⟩)))

/-- The three ways an iteration of `dataWorker` can go. -/
theorem dataWorker_cases {F : Type} (env : Env F) (http : HttpResult) (s : State F) :
    (s.dataPending ≠ none ∧ dataWorker env http s = s) ∨
    (s.dataPending = none ∧ (selected s).length = 0 ∧
      dataWorker env http s = { s with pairsKeyCh := none, lastPairsKey := selected s }) ∨
    (s.dataPending = none ∧ (selected s).length ≠ 0 ∧
      dataWorker env http s =
        { s with pairsKeyCh := none, lastPairsKey := selected s,
                 log := (match (getPrices env http (selected s)).err with
                   | some e => s.log ++ [e]
                   | none => s.log),
                 fetches := s.fetches ++ [selected s],
                 dataPending := some ⟨(getPrices env http (selected s)).prices,
                                      (getPrices env http (selected s)).pairs⟩ }) := by
  cases hp : s.dataPending with
  | some d => exact Or.inl ⟨by simp, by simp [dataWorker, hp]⟩
  | none =>
    by_cases hl : (selected s).length = 0
    · refine Or.inr (Or.inl ⟨rfl, hl, ?_⟩)
      unfold selected at hl
      unfold selected
      cases hc : s.pairsKeyCh with
      | none => rw [hc] at hl; simp only at hl; simp [dataWorker, hp, hc, hl]
      | some k => rw [hc] at hl; simp only at hl; simp [dataWorker, hp, hc, hl]
    · refine Or.inr (Or.inr ⟨rfl, hl, ?_⟩)
      unfold selected at hl
      unfold selected
      cases hc : s.pairsKeyCh with
      | none => rw [hc] at hl; simp only at hl; simp [dataWorker, hp, hc, hl]
      | some k => rw [hc] at hl; simp only at hl; simp [dataWorker, hp, hc, hl]

/-- The two ways the send on `dataCh` can go. -/
theorem dataSend_cases {F : Type} (s : State F) :
    (∃ data, s.dataPending = some data ∧ s.dataCh = none ∧
      dataSend s = { s with dataCh := some data, dataPending := none }) ∨
    ((s.dataPending = none ∨ s.dataCh ≠ none) ∧ dataSend s = s) := by
  cases hp : s.dataPending with
  | none => exact Or.inr ⟨Or.inl rfl, by simp [dataSend, hp]⟩
  | some data =>
    cases hc : s.dataCh with
    | none => exact Or.inl ⟨data, rfl, rfl, by simp [dataSend, hp, hc]⟩
    | some d => exact Or.inr ⟨Or.inr (by simp), by simp [dataSend, hp, hc]⟩

theorem dataSend_frame {F : Type} (s : State F) :
    (dataSend s).status = s.status ∧
    (dataSend s).keysEvents = s.keysEvents ∧
    (dataSend s).pairsKeyCh = s.pairsKeyCh ∧
    (dataSend s).displayModeCh = s.displayModeCh ∧
    (dataSend s).inputPending = s.inputPending ∧
    (dataSend s).lastPairsKey = s.lastPairsKey ∧
    (dataSend s).currentMode = s.currentMode ∧
    (dataSend s).writer = s.writer ∧
    (dataSend s).log = s.log ∧
    (dataSend s).fetches = s.fetches ∧
    (dataSend s).selections = s.selections := by
  unfold dataSend
  split <;> simp

theorem handleEvent_sends_keys (event : KeyEvent) (l : List Send)
    (h : handleEvent event = .sends l) :
    ∀ k, Send.pairsKey k ∈ l → k = "BTC_USD" ∨ k = "LTC_USD" ∨ k = "ETH_USD" := by
  unfold handleEvent at h
  cases hE : event.Err with
  | some e => simp [hE] at h
  | none =>
    simp only [hE] at h
    by_cases hq : event.Rune = 'q'
    · simp [hq] at h
    · simp only [hq, if_false, InputAction.sends.injEq] at h
      subst h
      intro k hk
      simp only [runeSends, keySends, List.mem_append] at hk
      rcases hk with hk | hk
      · split_ifs at hk <;> simp_all
      · split_ifs at hk <;> simp_all

theorem symbol_length (k : String) (h : k = "BTC_USD" ∨ k = "LTC_USD" ∨ k = "ETH_USD") :
    k.length ≠ 0 := by
  rcases h with rfl | rfl | rfl <;> decide

/-! ## The selections that reach dataWorker -/

theorem selectionInv_initial (F : Type) : SelectionInv (initial F) := by
  refine ⟨?_, ?_, ?_, ?_⟩ <;> simp [initial]

theorem selectionInv_inputHandler {F : Type} (s : State F) (h : SelectionInv s) :
    SelectionInv (inputHandler s) := by
  obtain ⟨h1, h2, h3, h4⟩ := h
  rcases inputHandler_cases s with
    ⟨key, rest, hp, hc, he⟩ | ⟨key, rest, hp, hc, he⟩ | ⟨mode, rest, hp, hc, he⟩ |
    ⟨mode, rest, hp, hc, he⟩ | ⟨hp, hk, he⟩ | ⟨event, events, e, hp, hk, hh, he⟩ |
    ⟨event, events, code, hp, hk, hh, he⟩ | ⟨event, events, l, hp, hk, hh, he⟩
  · rw [he]
    have hkey : key.length ≠ 0 := h2 key (by simp [hp])
    refine ⟨?_, ?_, ?_, ?_⟩
    · intro k hk
      simp only [List.mem_append, List.mem_singleton] at hk
      rcases hk with hk | rfl
      · exact h1 k hk
      · exact hkey
    · intro k hk
      exact h2 k (by rw [hp]; exact List.mem_cons_of_mem _ hk)
    · intro k hk
      simp only [Option.some.injEq] at hk
      subst hk
      simp
    · intro hn
      simp at hn
  · rw [he]; exact ⟨h1, h2, h3, h4⟩
  · rw [he]
    refine ⟨h1, ?_, h3, h4⟩
    intro k hk
    exact h2 k (by rw [hp]; exact List.mem_cons_of_mem _ hk)
  · rw [he]; exact ⟨h1, h2, h3, h4⟩
  · rw [he]; exact ⟨h1, h2, h3, h4⟩
  · rw [he]; exact ⟨h1, h2, h3, h4⟩
  · rw [he]; exact ⟨h1, h2, h3, h4⟩
  · rw [he]
    refine ⟨h1, ?_, h3, h4⟩
    intro k hk'
    exact symbol_length k (handleEvent_sends_keys event l hh k hk')

theorem selected_eq_last {F : Type} (s : State F) (h : SelectionInv s) :
    selected s = s.selections.getLast?.getD "" := by
  obtain ⟨_, _, h3, h4⟩ := h
  unfold selected
  cases hc : s.pairsKeyCh with
  | none => exact h4 hc
  | some k => simp [h3 k hc]

theorem selectionInv_dataWorker {F : Type} (env : Env F) (http : HttpResult) (s : State F)
    (h : SelectionInv s) : SelectionInv (dataWorker env http s) := by
  have hlast := selected_eq_last s h
  obtain ⟨h1, h2, h3, h4⟩ := h
  rcases dataWorker_cases env http s with ⟨_, he⟩ | ⟨_, _, he⟩ | ⟨_, _, he⟩
  · rw [he]; exact ⟨h1, h2, h3, h4⟩
  · rw [he]; exact ⟨h1, h2, by simp, fun _ => hlast⟩
  · rw [he]; exact ⟨h1, h2, by simp, fun _ => hlast⟩

theorem selectionInv_step {F : Type} (env : Env F) (s : State F) (l : Label)
    (h : SelectionInv s) : SelectionInv (step env s l) := by
  unfold step
  cases hs : s.status with
  | exited code => exact h
  | panicked msg => exact h
  | running =>
    cases l with
    | key event => exact h
    | input => exact selectionInv_inputHandler s h
    | display now =>
      have hf := displayWorker_frame env now s
      obtain ⟨h1, h2, h3, h4⟩ := h
      refine ⟨?_, ?_, ?_, ?_⟩
      · simpa [hf.2.2.2.2.2.2.2] using h1
      · simpa [hf.2.2.1] using h2
      · simpa [hf.2.1, hf.2.2.2.2.2.2.2] using h3
      · simpa [hf.2.1, hf.2.2.2.1, hf.2.2.2.2.2.2.2] using h4
    | fetch http => exact selectionInv_dataWorker env http s h
    | publish =>
      have hf := dataSend_frame s
      obtain ⟨h1, h2, h3, h4⟩ := h
      refine ⟨?_, ?_, ?_, ?_⟩
      · simpa [hf.2.2.2.2.2.2.2.2.2.2] using h1
      · simpa [hf.2.2.2.2.1] using h2
      · simpa [hf.2.2.1, hf.2.2.2.2.2.2.2.2.2.2] using h3
      · simpa [hf.2.2.1, hf.2.2.2.2.2.1, hf.2.2.2.2.2.2.2.2.2.2] using h4

theorem selectionInv_exec {F : Type} (env : Env F) (ls : List Label) :
    ∀ s : State F, SelectionInv s → SelectionInv (exec env s ls) := by
  induction ls with
  | nil => intro s h; exact h
  | cons l ls ih =>
    intro s h
    rw [exec_cons]
    exact ih _ (selectionInv_step env s l h)

theorem reachable_selectionInv {F : Type} (env : Env F) (ls : List Label) :
    SelectionInv (exec env (initial F) ls) :=
  selectionInv_exec env ls (initial F) (selectionInv_initial F)

theorem step_fetch {F : Type} (env : Env F) (http : HttpResult) (s : State F)
    (hrun : s.status = .running) : step env s (.fetch http) = dataWorker env http s := by
  simp [step, hrun]

theorem step_input {F : Type} (env : Env F) (s : State F)
    (hrun : s.status = .running) : step env s .input = inputHandler s := by
  simp [step, hrun]

theorem step_display {F : Type} (env : Env F) (now : Nat) (s : State F)
    (hrun : s.status = .running) : step env s (.display now) = displayWorker env now s := by
  simp [step, hrun]

theorem step_publish {F : Type} (env : Env F) (s : State F)
    (hrun : s.status = .running) : step env s .publish = dataSend s := by
  simp [step, hrun]

theorem step_stopped {F : Type} (env : Env F) (l : Label) (s : State F)
    (hrun : s.status ≠ .running) : step env s l = s := by
  unfold step
  cases hs : s.status with
  | running => exact absurd hs hrun
  | exited code => rfl
  | panicked msg => rfl

/-! ## C9 -/

/-- C9: in every state `s` the process reaches, when an iteration of `dataWorker` begins, it
takes at most one selection from `pairsKeyCh` into `lastPairsKey` (the one waiting there,
which is the last that entered the channel; a further send of `inputHandler` waits while
`pairsKeyCh` is full), and the symbol it passes to `getPrices` is the last selection that
entered `pairsKeyCh` before the iteration: the stored `lastPairsKey` when none waits.  When no
selection ever entered the channel the iteration calls nothing, sends nothing and leaves the
state as it was. -/
theorem fetch_uses_last_selection {F : Type} (env : Env F) (ls : List Label)
    (http : HttpResult) (s : State F) (hs : s = exec env (initial F) ls)
    (hrun : s.status = .running) (hidle : s.dataPending = none) :
    (step env s (.fetch http)).pairsKeyCh = none ∧
    (step env s (.fetch http)).selections = s.selections ∧
    (∀ k, s.pairsKeyCh = some k →
      s.selections.getLast? = some k ∧ (step env s (.fetch http)).lastPairsKey = k) ∧
    (s.pairsKeyCh = none → (step env s (.fetch http)).lastPairsKey = s.lastPairsKey) ∧
    (∀ key rest, s.inputPending = .pairsKey key :: rest → s.pairsKeyCh ≠ none →
      step env s .input = s) ∧
    (∀ k, s.selections.getLast? = some k →
      (step env s (.fetch http)).lastPairsKey = k ∧
      (step env s (.fetch http)).fetches = s.fetches ++ [k] ∧
      (step env s (.fetch http)).dataPending
        = some ⟨(getPrices env http k).prices, (getPrices env http k).pairs⟩) ∧
    (s.selections = [] → step env s (.fetch http) = s) := by
  have hinv : SelectionInv s := by rw [hs]; exact reachable_selectionInv env ls
  have hsel := selected_eq_last s hinv
  obtain ⟨h1, h2, h3, h4⟩ := hinv
  rw [step_fetch env http s hrun, step_input env s hrun]
  refine ⟨?_, ?_, ?_, ?_, ?_, ?_, ?_⟩
  · rcases dataWorker_cases env http s with ⟨hp, _⟩ | ⟨_, _, he⟩ | ⟨_, _, he⟩
    · exact absurd hidle hp
    · rw [he]
    · rw [he]
  · rcases dataWorker_cases env http s with ⟨hp, _⟩ | ⟨_, _, he⟩ | ⟨_, _, he⟩
    · exact absurd hidle hp
    · rw [he]
    · rw [he]
  · intro k hk
    refine ⟨h3 k hk, ?_⟩
    have hk' : selected s = k := by simp [selected, hk]
    rcases dataWorker_cases env http s with ⟨hp, _⟩ | ⟨_, _, he⟩ | ⟨_, _, he⟩
    · exact absurd hidle hp
    · rw [he]; exact hk'
    · rw [he]; exact hk'
  · intro hk
    have hk' : selected s = s.lastPairsKey := by simp [selected, hk]
    rcases dataWorker_cases env http s with ⟨hp, _⟩ | ⟨_, _, he⟩ | ⟨_, _, he⟩
    · exact absurd hidle hp
    · rw [he]; exact hk'
    · rw [he]; exact hk'
  · intro key rest hp hc
    rcases inputHandler_cases s with
      ⟨key', rest', hp', hc', he⟩ | ⟨_, _, _, _, he⟩ | ⟨mode, rest', hp', _, he⟩ |
      ⟨_, _, _, _, he⟩ | ⟨_, _, he⟩ | ⟨event, events, e, hp', _, _, he⟩ |
      ⟨event, events, code, hp', _, _, he⟩ | ⟨event, events, l, hp', _, _, he⟩
    · exact absurd hc' hc
    · exact he
    · rw [hp] at hp'; cases hp'
    · exact he
    · exact he
    · rw [hp] at hp'; cases hp'
    · rw [hp] at hp'; cases hp'
    · rw [hp] at hp'; cases hp'
  · intro k hk
    have hk' : selected s = k := by rw [hsel, hk]; rfl
    have hmem : k ∈ s.selections := List.mem_of_getLast?_eq_some hk
    have hlen : (selected s).length ≠ 0 := by rw [hk']; exact h1 k hmem
    rcases dataWorker_cases env http s with ⟨hp, _⟩ | ⟨_, h0, _⟩ | ⟨_, _, he⟩
    · exact absurd hidle hp
    · exact absurd h0 hlen
    · rw [he, hk']
      exact ⟨rfl, rfl, rfl⟩
  · intro hnil
    have hch : s.pairsKeyCh = none := by
      cases hc : s.pairsKeyCh with
      | none => rfl
      | some k =>
        have := h3 k hc
        rw [hnil] at this
        simp at this
    have hlast : s.lastPairsKey = "" := by
      have := h4 hch
      rw [hnil] at this
      simpa using this
    have hk' : selected s = "" := by rw [hsel, hnil]; rfl
    rcases dataWorker_cases env http s with ⟨hp, _⟩ | ⟨_, _, he⟩ | ⟨_, h0, _⟩
    · exact absurd hidle hp
    · rw [he, hk', ← hlast, ← hch]
    · rw [hk'] at h0
      exact absurd rfl h0

/-- C9 after `1` and `2` were both pressed before an iteration: only `BTC_USD` has entered
`pairsKeyCh`, the send of `LTC_USD` waits, and the iteration fetches `BTC_USD`. -/
theorem fetch_uses_last_selection_witness :
    (exec sampleEnv (initial Nat) selectTwice).status = .running ∧
    (exec sampleEnv (initial Nat) selectTwice).dataPending = none ∧
    (exec sampleEnv (initial Nat) selectTwice).selections = ["BTC_USD"] ∧
    (exec sampleEnv (initial Nat) selectTwice).inputPending
      = [.pairsKey "LTC_USD", .displayMode 1] ∧
    (step sampleEnv (exec sampleEnv (initial Nat) selectTwice)
      (.fetch (sampleOK ["100"] ["50"]))).fetches
      = (exec sampleEnv (initial Nat) selectTwice).fetches ++ ["BTC_USD"] :=
  ⟨by decide, by decide, by decide, by decide,
    ((fetch_uses_last_selection sampleEnv selectTwice (sampleOK ["100"] ["50"])
      (exec sampleEnv (initial Nat) selectTwice) rfl (by decide) (by decide)).2.2.2.2.2.1
      "BTC_USD" (by decide)).2.1⟩

/-! ## C7 -/

theorem errorTicks_step {F : Type} (env : Env F) (s : State F) (l : Label)
    (hmode : s.currentMode = 1) (hch : s.displayModeCh = none)
    (hd : ∀ d, s.dataCh = some d → d.prices = [])
    (hp : ∀ d, s.dataPending = some d → d.prices = [])
    (hl : (match l with
      | .display _ => true
      | .publish => true
      | .fetch http => (getPrices env http (selected s)).err.isSome
      | .key _ => false
      | .input => false) = true) :
    (step env s l).currentMode = 1 ∧ (step env s l).displayModeCh = none ∧
    (∀ d, (step env s l).dataCh = some d → d.prices = []) ∧
    (∀ d, (step env s l).dataPending = some d → d.prices = []) ∧
    (step env s l).writer = s.writer := by
  by_cases hrun : s.status = .running
  · cases l with
    | key event => simp at hl
    | input => simp at hl
    | display now =>
      rw [step_display env now s hrun, displayWorker_steady env now s hch hmode]
      rcases drawPending_cases env now s with
        ⟨_, he⟩ | ⟨data, w, hdc, hw, he⟩ | ⟨data, w, msg, hdc, hw, he⟩
      · rw [he]; exact ⟨hmode, hch, hd, hp, rfl⟩
      · rw [he]
        rw [displayGraph_nil env now data s.writer (hd data hdc)] at hw
        cases hw
        exact ⟨hmode, hch, by simp, hp, rfl⟩
      · rw [displayGraph_nil env now data s.writer (hd data hdc)] at hw
        cases hw
    | fetch http =>
      rw [step_fetch env http s hrun]
      rcases dataWorker_cases env http s with ⟨_, he⟩ | ⟨_, _, he⟩ | ⟨_, _, he⟩
      · rw [he]; exact ⟨hmode, hch, hd, hp, rfl⟩
      · rw [he]; exact ⟨hmode, hch, hd, hp, rfl⟩
      · rw [he]
        refine ⟨hmode, hch, hd, ?_, rfl⟩
        intro d hd'
        simp only [Option.some.injEq] at hd'
        subst hd'
        simp only at hl
        obtain ⟨e, he'⟩ := Option.isSome_iff_exists.1 hl
        exact (getPrices_error_empty env http (selected s) e he').1
    | publish =>
      rw [step_publish env s hrun]
      rcases dataSend_cases s with ⟨data, hpd, _, he⟩ | ⟨_, he⟩
      · rw [he]
        refine ⟨hmode, hch, ?_, by simp, rfl⟩
        intro d hd'
        simp only [Option.some.injEq] at hd'
        subst hd'
        exact hp data hpd
      · rw [he]; exact ⟨hmode, hch, hd, hp, rfl⟩
  · rw [step_stopped env l s hrun]
    exact ⟨hmode, hch, hd, hp, rfl⟩

/-- C7, the claim refuted: after `pendingBTC` the display is in Chart mode, no mode change is
pending, `dataWorker` is at the head of its loop, and a series of `BTC_USD` published by the
last successful fetch waits in `dataCh`.  Every call of `getPrices` in `threeErrors` returns
an error, yet when the display has taken everything the writer is not what it was: the chart
of the waiting series has been drawn. -/
theorem pending_series_drawn_during_errors :
    (exec sampleEnv (initial Nat) pendingBTC).status = .running ∧
    (exec sampleEnv (initial Nat) pendingBTC).currentMode = 1 ∧
    (exec sampleEnv (initial Nat) pendingBTC).displayModeCh = none ∧
    (exec sampleEnv (initial Nat) pendingBTC).dataPending = none ∧
    (exec sampleEnv (initial Nat) pendingBTC).dataCh = some ⟨[100], "BTC_USD"⟩ ∧
    errorTicks sampleEnv (exec sampleEnv (initial Nat) pendingBTC) threeErrors = true ∧
    (exec sampleEnv (exec sampleEnv (initial Nat) pendingBTC) threeErrors).log.length = 2 ∧
    (exec sampleEnv (exec sampleEnv (initial Nat) pendingBTC) threeErrors).dataCh = none ∧
    (exec sampleEnv (exec sampleEnv (initial Nat) pendingBTC) threeErrors).dataPending = none ∧
    charts (exec sampleEnv (initial Nat) pendingBTC).writer = [] ∧
    charts (exec sampleEnv (exec sampleEnv (initial Nat) pendingBTC) threeErrors).writer
      = ["BTC_USD"] ∧
    (exec sampleEnv (exec sampleEnv (initial Nat) pendingBTC) threeErrors).writer
      ≠ (exec sampleEnv (initial Nat) pendingBTC).writer := by
  decide

/-- C7 as amended: while `displayWorker` is in Chart mode with no mode change pending, and
provided no series with prices is still waiting to be drawn (in `dataCh` or in the send of
`dataWorker`) when they begin, any number of iterations of `dataWorker` on which `getPrices`
returns an error, interleaved in any way with iterations of `displayWorker`, leave the writer
exactly as it was: the last frame drawn stays on the screen, and the display stays in Chart
mode. -/
theorem error_ticks_keep_frame {F : Type} (env : Env F) (ls : List Label) :
    ∀ s : State F, s.currentMode = 1 → s.displayModeCh = none →
      (∀ d, s.dataCh = some d → d.prices = []) →
      (∀ d, s.dataPending = some d → d.prices = []) →
      errorTicks env s ls = true →
      (exec env s ls).writer = s.writer ∧ (exec env s ls).currentMode = 1 ∧
      (∀ d, (exec env s ls).dataCh = some d → d.prices = []) := by
  induction ls with
  | nil =>
    intro s hmode _ hd _ _
    exact ⟨rfl, hmode, hd⟩
  | cons l ls ih =>
    intro s hmode hch hd hp ht
    simp only [errorTicks, Bool.and_eq_true] at ht
    obtain ⟨h1, h2, h3, h4, h5⟩ := errorTicks_step env s l hmode hch hd hp ht.1
    rw [exec_cons]
    obtain ⟨i1, i2, i3⟩ := ih (step env s l) h1 h2 h3 h4 ht.2
    exact ⟨by rw [i1, h5], i2, i3⟩

/-- C7 as amended, after a chart of `BTC_USD` was drawn: three failing iterations run to their end (three
errors logged, four calls made, nothing left in `dataCh`) and the writer is as before. -/
theorem error_ticks_keep_frame_witness :
    (exec sampleEnv (initial Nat) showBTC).currentMode = 1 ∧
    (exec sampleEnv (initial Nat) showBTC).displayModeCh = none ∧
    (exec sampleEnv (initial Nat) showBTC).dataCh = none ∧
    (exec sampleEnv (initial Nat) showBTC).dataPending = none ∧
    charts (exec sampleEnv (initial Nat) showBTC).writer = ["BTC_USD"] ∧
    errorTicks sampleEnv (exec sampleEnv (initial Nat) showBTC) threeErrors = true ∧
    (exec sampleEnv (exec sampleEnv (initial Nat) showBTC) threeErrors).log.length = 3 ∧
    (exec sampleEnv (exec sampleEnv (initial Nat) showBTC) threeErrors).fetches.length = 4 ∧
    (exec sampleEnv (exec sampleEnv (initial Nat) showBTC) threeErrors).dataCh = none ∧
    (exec sampleEnv (exec sampleEnv (initial Nat) showBTC) threeErrors).dataPending = none ∧
    (exec sampleEnv (exec sampleEnv (initial Nat) showBTC) threeErrors).writer
      = (exec sampleEnv (initial Nat) showBTC).writer :=
  ⟨by decide, by decide, by decide, by decide, by decide, by decide, by decide, by decide,
    by decide, by decide,
    (error_ticks_keep_frame sampleEnv threeErrors (exec sampleEnv (initial Nat) showBTC)
      (by decide) (by decide) (by decide) (by decide) (by decide)).1⟩

/-! ## The scenario: the lines of symbols and of modes -/

theorem sendsOf_append (l l' : List KeyEvent) :
    sendsOf (l ++ l') = sendsOf l ++ sendsOf l' := by
  induction l with
  | nil => rfl
  | cons a l ih => simp [sendsOf, ih]

end TerminalGraphs
